import Mathlib

/-!
Shallow embedding of the flash-image analyzer core (Qualcomm and NVIDIA
platform analyzers, filesystem detector, partition validator, extraction)
and proofs about the claims of its specification.

Files embedded:
  src/flash_img/core/models.py       (data model)
  src/flash_img/core/exceptions.py   (error taxonomy)
  src/flash_img/core/analyzer.py     (extract_partition)
  src/flash_img/platforms/qualcomm.py
  src/flash_img/platforms/nvidia.py
  src/vmount/analyzers/filesystem.py (FilesystemAnalyzer)

A `ByteSource` stands for the opened image file: a size and a byte function.
`readAt` mirrors Python's seek+read, which silently returns fewer bytes near
the end of the file; `readPy` additionally mirrors `read(n)` for negative
`n`, which reads to the end of the file.  Integer fields that Python holds
as unbounded (possibly negative) ints are `Int`; decoded unsigned header
fields are `Nat`.  Loops are embedded with explicit fuel; termination of
the scanning loops is itself one of the claims.
-/

set_option maxRecDepth 10000

deriving instance DecidableEq for Except

namespace FlashImg

/-- A read-only random-access view of the image: total size plus the byte at
each position (positions past the end never reach a read). -/
structure ByteSource where
  size : Nat
  byteAt : Nat → Nat

/-- Python `f.seek(off); f.read(len)`: yields the bytes from `off` up to
`off + len`, truncated at the end of the file (a short read is silent). -/
def readAt (s : ByteSource) (off len : Nat) : List Nat :=
  (List.range (min len (s.size - off))).map (fun i => s.byteAt (off + i))

/-- Python `f.read(n)` for an `int` count: a negative count reads to the end
of the file, a nonnegative one reads at most `n` bytes. -/
def readPy (s : ByteSource) (off : Nat) (len : Int) : List Nat :=
  if len < 0 then readAt s off (s.size - off) else readAt s off len.toNat

/-- The bytes of the half-open range `[a, a + n)` of the source, read as
mathematical positions (no end-of-file truncation). -/
def sourceSlice (s : ByteSource) (a n : Nat) : List Nat :=
  (List.range n).map (fun i => s.byteAt (a + i))

/-- struct.unpack `<H` at byte offset `o` of a buffer. -/
def leU16 (b : List Nat) (o : Nat) : Nat :=
  b.getD o 0 + 256 * b.getD (o + 1) 0

/-- struct.unpack `<I` at byte offset `o` of a buffer. -/
def leU32 (b : List Nat) (o : Nat) : Nat :=
  b.getD o 0 + 256 * b.getD (o + 1) 0 + 65536 * b.getD (o + 2) 0 +
    16777216 * b.getD (o + 3) 0

/-- struct.unpack `<Q` at byte offset `o` of a buffer. -/
def leU64 (b : List Nat) (o : Nat) : Nat :=
  leU32 b o + 4294967296 * leU32 b (o + 4)

/-- struct.unpack `>I` at byte offset `o` of a buffer. -/
def beU32 (b : List Nat) (o : Nat) : Nat :=
  16777216 * b.getD o 0 + 65536 * b.getD (o + 1) 0 + 256 * b.getD (o + 2) 0 +
    b.getD (o + 3) 0

/-- struct.unpack `>Q` at byte offset `o` of a buffer. -/
def beU64 (b : List Nat) (o : Nat) : Nat :=
  4294967296 * beU32 b o + beU32 b (o + 4)

/-- Python `hay.find(pat)` restricted to success: the least index at which
`pat` occurs as a contiguous run of `hay`, if any. -/
def findSub {α : Type} [DecidableEq α] (hay pat : List α) : Option Nat :=
  (List.range (hay.length + 1)).find? (fun i => pat.isPrefixOf (hay.drop i))

/-- Python `pat in hay` for byte strings: contiguous-subsequence test. -/
def containsSub {α : Type} [DecidableEq α] (hay pat : List α) : Bool :=
  (findSub hay pat).isSome

/-- Python `pat in hay` on strings (after both were lowercased by the caller). -/
def strContains (hay pat : String) : Bool :=
  containsSub hay.toList pat.toList

/-- `ImageType` of src/flash_img/core/models.py. -/
inductive ImageType where
  | sbl | tz | rpm | appsbl | boot | recovery | system | userdata | unknown
deriving DecidableEq, Repr

/-- The `.value` string of each `ImageType` enum member. -/
def ImageType.val : ImageType → String
  | .sbl => "sbl"
  | .tz => "tz"
  | .rpm => "rpm"
  | .appsbl => "appsbl"
  | .boot => "boot"
  | .recovery => "recovery"
  | .system => "system"
  | .userdata => "userdata"
  | .unknown => "unknown"

/-- `FilesystemInfo` of src/flash_img/core/models.py; fields are `Int`
because Python holds them as unbounded ints (the ext path can go negative). -/
structure FilesystemInfo where
  fs_type : String
  fs_size : Int
  used_size : Int
  free_size : Int
  block_size : Int
  total_blocks : Int
  free_blocks : Int
deriving DecidableEq, Repr

/-- `PartitionInfo` of src/flash_img/core/models.py.  `size` is `Int`: the
GPT path computes `(last_lba - first_lba + 1) * 512`, which Python lets go
negative.  `offset` is always a nonnegative decode in every code path. -/
structure PartitionInfo where
  name : String
  offset : Nat
  size : Int
  image_type : ImageType
  load_addr : Nat := 0
  entry_point : Nat := 0
  crc32 : Nat := 0
  filesystem : Option FilesystemInfo := none
deriving DecidableEq, Repr

/-- `AnalysisResult` of src/flash_img/core/models.py. -/
structure AnalysisResult where
  filename : String
  file_size : Nat
  partitions : List PartitionInfo
  total_partition_size : Int
  total_filesystem_used : Int
  validation_errors : List String
  warnings : List String
deriving DecidableEq, Repr

/-- The exception classes of src/flash_img/core/exceptions.py that analysis
and extraction can surface, each carrying its message string. -/
inductive AnalyzeError where
  | analysisError (msg : String)
  | validationError (msg : String)
  | unsupportedFormatError (msg : String)
  | partitionNotFoundError (msg : String)
  | filesystemError (msg : String)
deriving DecidableEq, Repr

/-- Whether an analysis outcome is an error of the `UnsupportedFormatError` class. -/
def isUnsupportedFormat {α : Type} : Except AnalyzeError α → Bool
  | .error (.unsupportedFormatError _) => true
  | _ => false

/-- `sum(p.size for p in partitions)` of the analyze methods. -/
def totalSize (ps : List PartitionInfo) : Int :=
  (ps.map (·.size)).sum

/-- `sum(p.filesystem.used_size for p in partitions if p.filesystem)`. -/
def totalFsUsed (ps : List PartitionInfo) : Int :=
  (ps.filterMap (fun p => p.filesystem.map (·.used_size))).sum

namespace Fs

/-- `FilesystemAnalyzer._analyze_ext_filesystem`: decode the ext superblock
at region offset 0x400; the re-read branch fires when the 8 KiB header did
not cover the superblock (dead under the caller's guard, kept faithfully). -/
def analyzeExt (s : ByteSource) (off : Nat) (size : Int) (header : List Nat) :
    FilesystemInfo :=
  let sb_data :=
    if header.length < 0x400 + 96 then readAt s (off + 0x400) 96
    else (header.drop 0x400).take 96
  if sb_data.length < 96 then
    ⟨"ext", size, 0, size, 4096, 0, 0⟩
  else
    let s_blocks_count := leU32 sb_data 4
    let s_free_blocks_count := leU32 sb_data 12
    let s_log_block_size := leU32 sb_data 24
    let block_size : Int := (1024 <<< s_log_block_size : Nat)
    let fs_size : Int := (s_blocks_count : Int) * block_size
    let free_size : Int := (s_free_blocks_count : Int) * block_size
    ⟨"ext", fs_size, fs_size - free_size, free_size, block_size,
      (s_blocks_count : Int), (s_free_blocks_count : Int)⟩

/-- `FilesystemAnalyzer._analyze_squashfs_filesystem`.  A zero `block_size`
raises ZeroDivisionError in `total_blocks`, which the caller's blanket
except turns into no result; that is the `none` case here. -/
def analyzeSquashfs (size : Int) (header : List Nat) : Option FilesystemInfo :=
  if header.length < 96 then
    some ⟨"squashfs", size, size, 0, 131072, 0, 0⟩
  else
    let magic := header.take 4
    let bytes_used := if magic = [0x68, 0x73, 0x71, 0x73] then leU64 header 40 else beU64 header 40
    let block_size := if magic = [0x68, 0x73, 0x71, 0x73] then leU32 header 12 else beU32 header 12
    if block_size = 0 then none
    else
      some ⟨"squashfs", (bytes_used : Int), (bytes_used : Int), 0, (block_size : Int),
        ((bytes_used / block_size : Nat) : Int), 0⟩

/-- `FilesystemAnalyzer._analyze_ubifs_filesystem` (coarse estimates only). -/
def analyzeUbifs (size : Int) : FilesystemInfo :=
  ⟨"ubifs", size, size.fdiv 2, size.fdiv 2, 131072, size.fdiv 131072,
    (size.fdiv 131072).fdiv 2⟩

/-- `FilesystemAnalyzer._analyze_jffs2_filesystem` (coarse estimates only). -/
def analyzeJffs2 (size : Int) : FilesystemInfo :=
  ⟨"jffs2", size, size.fdiv 3, (size * 2).fdiv 3, 65536, size.fdiv 65536,
    ((size.fdiv 65536) * 2).fdiv 3⟩

/-- `FilesystemAnalyzer._detect_yaffs2_pattern`: sample 16-byte windows every
512 bytes over the first `min (len - 16) 2048` bytes and count windows whose
first byte is a plausible YAFFS2 object type. -/
def detectYaffs2 (header : List Nat) : Bool :=
  let m := min (header.length - 16) 2048
  let idxs := (List.range ((m + 511) / 512)).map (fun j => 512 * j)
  2 ≤ idxs.countP (fun i =>
    let chunk := (header.drop i).take 16
    4 ≤ chunk.length && [1, 2, 3, 4, 5].contains (chunk.getD 0 0))

/-- `FilesystemAnalyzer._analyze_yaffs2_filesystem` (coarse estimates only). -/
def analyzeYaffs2 (size : Int) : FilesystemInfo :=
  ⟨"yaffs2", size, size.fdiv 2, size.fdiv 2, 131072, size.fdiv 131072,
    (size.fdiv 131072).fdiv 2⟩

/-- `FilesystemAnalyzer.analyze`: read up to 8 KiB at `off`, give up below
1 KiB, then probe ext, squashfs, ubifs, jffs2 and yaffs2 in that order. -/
def fsAnalyze (s : ByteSource) (off : Nat) (size : Int) : Option FilesystemInfo :=
  let header := readPy s off (min 8192 size)
  if header.length < 1024 then none
  else if 0x464 ≤ header.length ∧ leU16 header 0x438 = 0xEF53 then
    some (analyzeExt s off size header)
  else if 96 ≤ header.length ∧
      (header.take 4 = [0x68, 0x73, 0x71, 0x73] ∨ header.take 4 = [0x73, 0x71, 0x73, 0x68]) then
    analyzeSquashfs size header
  else if 64 ≤ header.length ∧ header.take 4 = [0x55, 0x42, 0x49, 0x23] then
    some (analyzeUbifs size)
  else if 12 ≤ header.length ∧ (header.take 2 = [0x19, 0x85] ∨ header.take 2 = [0x85, 0x19]) then
    some (analyzeJffs2 size)
  else if detectYaffs2 header then
    some (analyzeYaffs2 size)
  else none

end Fs

namespace Qualcomm

/-- The magic prefixes `QualcommAnalyzer.can_handle` accepts: ELF, "GANG",
"QCOM", four zero bytes. -/
def knownMagics : List (List Nat) :=
  [[0x7f, 0x45, 0x4c, 0x46], [0x47, 0x41, 0x4e, 0x47], [0x51, 0x43, 0x4f, 0x4d], [0, 0, 0, 0]]

/-- `QualcommAnalyzer.can_handle`: the first four bytes equal a known magic. -/
def canHandle (s : ByteSource) : Bool :=
  knownMagics.contains (readAt s 0 4)

/-- `QualcommAnalyzer._detect_gang_format`: textually the same check as
`can_handle` (same magic list). -/
def detectGangFormat (s : ByteSource) : Bool :=
  knownMagics.contains (readAt s 0 4)

/-- `MBNHeader` of src/flash_img/platforms/qualcomm.py: ten `<I` fields. -/
structure MBNHeader where
  image_id : Nat
  header_vsn_num : Nat
  image_src : Nat
  image_dest_ptr : Nat
  image_size : Nat
  code_size : Nat
  signature_ptr : Nat
  signature_size : Nat
  cert_chain_ptr : Nat
  cert_chain_size : Nat
deriving DecidableEq, Repr

/-- `QualcommAnalyzer._parse_mbn_header`: `struct.unpack("<10I", data)`
requires exactly 40 bytes; anything else is `None` (short data by the
explicit guard, longer data by the caught struct.error). -/
def parseMBNHeader (data : List Nat) : Option MBNHeader :=
  if data.length < 40 then none
  else if data.length ≠ 40 then none
  else some ⟨leU32 data 0, leU32 data 4, leU32 data 8, leU32 data 12, leU32 data 16,
    leU32 data 20, leU32 data 24, leU32 data 28, leU32 data 32, leU32 data 36⟩

/-- `QualcommAnalyzer._validate_mbn_header`. -/
def validateMBNHeader (fileSize : Nat) (h : MBNHeader) (offset : Nat) : Bool :=
  !(h.image_size = 0 ∨ fileSize < h.image_size) &&
  !(fileSize < offset + h.image_size) &&
  !(10 < h.header_vsn_num) &&
  !(h.image_dest_ptr < 0x40000000 ∨ 0xFFFFFFFF < h.image_dest_ptr)

/-- `QualcommAnalyzer._detect_image_type`: classify by load-address range,
falling back to a content sniff just past the 40-byte MBN header. -/
def detectImageType (s : ByteSource) (offset : Nat) (h : MBNHeader) : ImageType :=
  let load_addr := h.image_dest_ptr
  if 0x40000000 ≤ load_addr ∧ load_addr ≤ 0x4FFFFFFF then .sbl
  else if 0x86000000 ≤ load_addr ∧ load_addr ≤ 0x87FFFFFF then .tz
  else if 0x60000000 ≤ load_addr ∧ load_addr ≤ 0x6FFFFFFF then .rpm
  else if 0x8F600000 ≤ load_addr ∧ load_addr ≤ 0x8F6FFFFF then .appsbl
  else
    let content := readPy s (offset + 40) (min 512 ((h.image_size : Int) - 40))
    if containsSub content [0x41, 0x4e, 0x44, 0x52, 0x4f, 0x49, 0x44, 0x21] then .boot
    else if containsSub content [0x4c, 0x69, 0x6e, 0x75, 0x78] ∨
        containsSub content [0x76, 0x6d, 0x6c, 0x69, 0x6e, 0x75, 0x7a] then .boot
    else .unknown

/-- Python `(next_offset + 4095) & ~4095` for a nonnegative int: round up to
the next multiple of 4096. -/
def alignUp4096 (n : Nat) : Nat :=
  ((n + 4095) / 4096) * 4096

/-- The `PartitionInfo` the MBN scan emits for an accepted header at
`offset`, filesystem probe (on the region past the 40-byte header) included. -/
def mbnPartition (s : ByteSource) (skipFs : Bool) (offset count : Nat)
    (h : MBNHeader) : PartitionInfo :=
  let image_type := detectImageType s offset h
  let p : PartitionInfo :=
    { name := image_type.val ++ "_" ++ toString count, offset := offset,
      size := (h.image_size : Int), image_type := image_type,
      load_addr := h.image_dest_ptr, entry_point := h.image_dest_ptr }
  if !skipFs && 1048576 < p.size then
    { p with filesystem := Fs.fsAnalyze s (offset + 40) ((h.image_size : Int) - 40) }
  else p

/-- `QualcommAnalyzer._scan_mbn_images`, with explicit fuel: at each offset
read 40 bytes, accept a validated MBN header (advancing to the 4096-aligned
end of its image), otherwise step 4096; stop when fewer than 40 bytes
remain. `none` means the fuel ran out before the loop stopped. -/
def scanMBNAux (s : ByteSource) (skipFs : Bool) :
    Nat → Nat → Nat → Option (List PartitionInfo)
  | 0, _, _ => none
  | fuel + 1, offset, count =>
    if offset < s.size - 40 then
      let header_data := readAt s offset 40
      if header_data.length < 40 then some []
      else
        match parseMBNHeader header_data with
        | some mh =>
          if validateMBNHeader s.size mh offset then
            (scanMBNAux s skipFs fuel (alignUp4096 (offset + mh.image_size)) (count + 1)).map
              (mbnPartition s skipFs offset count mh :: ·)
          else scanMBNAux s skipFs fuel (offset + 4096) count
        | none => scanMBNAux s skipFs fuel (offset + 4096) count
    else some []

/-- The MBN scan from the start of the file, with fuel that theorem
`scanMBNAux_isSome` below shows is always enough. -/
def scanMBN (s : ByteSource) (skipFs : Bool) : List PartitionInfo :=
  (scanMBNAux s skipFs (s.size + 1) 0 0).getD []

/-- One program-header entry of `QualcommAnalyzer._try_parse_elf`: keep
`p_type == 1 && p_filesz > 0`, with the filesystem probe on large segments. -/
def elfSegment (s : ByteSource) (skipFs : Bool) (i : Nat) (ph : List Nat) :
    Option PartitionInfo :=
  if 32 ≤ ph.length then
    let p_type := leU32 ph 0
    let p_offset := leU32 ph 4
    let p_paddr := leU32 ph 12
    let p_filesz := leU32 ph 16
    if p_type = 1 ∧ 0 < p_filesz then
      let p : PartitionInfo :=
        { name := "segment_" ++ toString i, offset := p_offset, size := (p_filesz : Int),
          image_type := .unknown, load_addr := p_paddr }
      some (if !skipFs && 1048576 < p.size then
        { p with filesystem := Fs.fsAnalyze s p.offset (p_filesz : Int) } else p)
    else none
  else none

/-- `QualcommAnalyzer._try_parse_elf`: `none` when the 52-byte ELF32 header
is short or the magic is wrong; otherwise the loadable segments.  The i-th
sequential `f.read(e_phentsize)` starts at `e_phoff + i * e_phentsize`
(short reads only happen at end of file, where both views agree). -/
def tryParseElf (s : ByteSource) (skipFs : Bool) : Option (List PartitionInfo) :=
  let elf_header := readAt s 0 52
  if elf_header.length < 52 ∨ elf_header.take 4 ≠ [0x7f, 0x45, 0x4c, 0x46] then none
  else
    let e_phoff := leU32 elf_header 28
    let e_phentsize := leU16 elf_header 42
    let e_phnum := leU16 elf_header 44
    some ((List.range e_phnum).filterMap (fun i =>
      elfSegment s skipFs i (readAt s (e_phoff + i * e_phentsize) e_phentsize)))

/-- The analyzer's only mutable attribute: `self.partitions`, set by
`_try_parse_elf` and read back by `_parse_gang_image`. -/
structure QState where
  partitions : List PartitionInfo := []
deriving DecidableEq, Repr

/-- One per-partition check block of `_validate_partitions` (both platforms
share the shape; the size sanity bounds differ). -/
def partitionChecks (fileSize : Nat) (maxSize minSize : Int) (p : PartitionInfo) :
    List String :=
  (if (fileSize : Int) < (p.offset : Int) + p.size then
    [p.name ++ ": extends beyond file end"] else []) ++
  (if maxSize < p.size then
    [p.name ++ ": unusually large (" ++ toString p.size ++ " bytes)"] else []) ++
  (if p.size < minSize then
    [p.name ++ ": unusually small (" ++ toString p.size ++ " bytes)"] else [])

/-- One step of a stable sort: place `x` after every already-placed element
whose key is not greater, before the first strictly greater one. -/
def stableInsert (x : PartitionInfo) : List PartitionInfo → List PartitionInfo
  | [] => [x]
  | y :: ys => if y.offset ≤ x.offset then y :: stableInsert x ys else x :: y :: ys

/-- Python `sorted(partitions, key=lambda p: p.offset)`: the stable
ascending-by-offset permutation (elements of equal offset keep their
original order), built by inserting the elements left to right. -/
def sortByOffset (partitions : List PartitionInfo) : List PartitionInfo :=
  partitions.foldl (fun acc x => stableInsert x acc) []

/-- The overlap pass of `_validate_partitions`: sort a copy by offset
(Python's stable sort) and report each adjacent overlapping pair. -/
def overlapChecks (partitions : List PartitionInfo) : List String :=
  let sorted := sortByOffset partitions
  (sorted.zip sorted.tail).filterMap (fun c =>
    if (c.2.offset : Int) < (c.1.offset : Int) + c.1.size then
      some (c.1.name ++ " overlaps with " ++ c.2.name ++ " by " ++
        toString ((c.1.offset : Int) + c.1.size - (c.2.offset : Int)) ++ " bytes")
    else none)

/-- `_validate_partitions`: per-partition diagnostics then overlap
diagnostics (Qualcomm bounds 1 KiB..256 MiB, NVIDIA bounds 512 B..1 GiB). -/
def validatePartitions (partitions : List PartitionInfo) (fileSize : Nat)
    (maxSize minSize : Int) : List String :=
  (partitions.map (partitionChecks fileSize maxSize minSize)).flatten ++
    overlapChecks partitions

/-- The discovery step of `QualcommAnalyzer.analyze`: the analyzer state
after the call, the discovered partitions and the accumulated warnings.
When `_detect_gang_format` holds (the same check as `can_handle`),
`_parse_gang_image` runs: ELF first (which stores its segments in
`self.partitions`), else the custom-gang placeholder, which just defers to
the MBN scan; the warning branch only fires when `_detect_gang_format`
fails. -/
def qDiscover (st : QState) (s : ByteSource) (skipFs : Bool) :
    QState × List PartitionInfo × List String :=
  if detectGangFormat s then
    match tryParseElf s skipFs with
    | some ps => (⟨ps⟩, ps, [])
    | none => (st, scanMBN s skipFs, [])
  else (st, scanMBN s skipFs, ["Gang header not found, scanning for individual MBN images"])

/-- The `AnalysisResult` record `QualcommAnalyzer.analyze` assembles from
the discovered partitions and warnings (totals, validator output). -/
def qResult (s : ByteSource) (filename : String) (partitions : List PartitionInfo)
    (warnings : List String) : AnalysisResult :=
  { filename := filename
    file_size := s.size
    partitions := partitions
    total_partition_size := totalSize partitions
    total_filesystem_used := totalFsUsed partitions
    validation_errors := validatePartitions partitions s.size 268435456 1024
    warnings := warnings }

/-- `QualcommAnalyzer.analyze`.  The `UnsupportedFormatError` raised inside
the `try` block is caught by the blanket `except Exception` and re-raised as
`AnalysisError` wrapping its message. -/
def analyzeQ (st : QState) (s : ByteSource) (skipFs : Bool) (filename : String) :
    QState × Except AnalyzeError AnalysisResult :=
  if canHandle s then
    ((qDiscover st s skipFs).1,
      .ok (qResult s filename (qDiscover st s skipFs).2.1 (qDiscover st s skipFs).2.2))
  else
    (st, .error (.analysisError
      "Error analyzing Qualcomm gang image: Not a recognized Qualcomm gang image format"))

/-- `', '.join(available)` over the partitions' names. -/
def availableNames (ps : List PartitionInfo) : String :=
  String.intercalate ", " (ps.map (·.name))

/-- `GangImageAnalyzer.extract_partition` run under the Qualcomm analyzer:
re-analyze, look the name up (first match), raise `AnalysisError` listing
the available names when absent, else `seek(offset); read(size)` — which
silently returns fewer bytes when the range leaves the file. -/
def extractQ (st : QState) (s : ByteSource) (skipFs : Bool) (filename : String)
    (partition_name : String) : Except AnalyzeError (List Nat) :=
  match (analyzeQ st s skipFs filename).2 with
  | .error e => .error e
  | .ok result =>
    match result.partitions.find? (fun p => p.name == partition_name) with
    | none => .error (.analysisError ("Partition '" ++ partition_name ++
        "' not found. Available: " ++ availableNames result.partitions))
    | some p => .ok (readPy s p.offset p.size)

end Qualcomm

namespace NVIDIA

/-- `NVIDIAAnalyzer.NVIDIA_MAGICS`: "NVDA", "TEGR", "BCT\x00", "NV3P". -/
def nvidiaMagics : List (List Nat) :=
  [[0x4e, 0x56, 0x44, 0x41], [0x54, 0x45, 0x47, 0x52], [0x42, 0x43, 0x54, 0x00],
    [0x4e, 0x56, 0x33, 0x50]]

/-- `NVIDIAAnalyzer.GPT_SIGNATURE`: "EFI PART". -/
def gptSignature : List Nat :=
  [0x45, 0x46, 0x49, 0x20, 0x50, 0x41, 0x52, 0x54]

/-- `NVIDIAAnalyzer.can_handle`: a platform magic in the first 512 bytes, or
the GPT signature exactly at byte 512, or a platform magic in the first
64 KiB. -/
def canHandle (s : ByteSource) : Bool :=
  let header := readAt s 0 512
  if nvidiaMagics.any (fun magic => containsSub header magic) then true
  else if readAt s 512 8 = gptSignature then true
  else
    let chunk := readAt s 0 65536
    nvidiaMagics.any (fun magic => containsSub chunk magic)

/-- `NVIDIAAnalyzer._estimate_bct_size`: the first candidate extent whose
following 512-byte window holds a platform or GPT signature, else 16 KiB. -/
def estimateBctSize (s : ByteSource) (offset : Nat) : Nat :=
  (([4096, 8192, 16384] : List Nat).find? (fun test_size =>
    let next_data := readAt s (offset + test_size) 512
    (nvidiaMagics ++ [gptSignature]).any (fun magic => containsSub next_data magic))).getD
    (4096 * 4)

/-- `NVIDIAAnalyzer._detect_bct`: probe the fixed candidate offsets for a
"BCT\x00" or "NVDA" prefix and emit one BCT partition for the first hit. -/
def detectBct (s : ByteSource) : Option PartitionInfo :=
  (([0, 512, 1024, 2048, 4096] : List Nat).find? (fun offset =>
    let header := readAt s offset 16
    4 ≤ header.length ∧
      (header.take 4 = [0x42, 0x43, 0x54, 0x00] ∨ header.take 4 = [0x4e, 0x56, 0x44, 0x41]))).map
    (fun offset =>
      { name := "BCT", offset := offset, size := (estimateBctSize s offset : Int),
        image_type := .unknown })

/-- Pair the bytes of a UTF-16LE buffer into 16-bit code units. -/
def toU16Units : List Nat → List Nat
  | b0 :: b1 :: rest => (b0 + 256 * b1) :: toU16Units rest
  | _ => []

/-- Combine UTF-16 code units into characters the way Python's strict
"utf-16le" decoder does: an unpaired surrogate is a decode error (`none`). -/
def unitsToChars : List Nat → Option (List Char)
  | [] => some []
  | [u] =>
    if u < 0xD800 ∨ 0xE000 ≤ u then some [Char.ofNat u] else none
  | u :: u2 :: rest =>
    if u < 0xD800 ∨ 0xE000 ≤ u then
      (unitsToChars (u2 :: rest)).map (fun cs => Char.ofNat u :: cs)
    else if u < 0xDC00 then
      if 0xDC00 ≤ u2 ∧ u2 < 0xE000 then
        (unitsToChars rest).map (fun cs =>
          Char.ofNat (0x10000 + (u - 0xD800) * 1024 + (u2 - 0xDC00)) :: cs)
      else none
    else none

/-- Python `bytes.decode("utf-16le")`: odd lengths and unpaired surrogates
are decode errors. -/
def utf16leDecode (b : List Nat) : Option (List Char) :=
  if b.length % 2 = 0 then unitsToChars (toU16Units b) else none

/-- Python `str.rstrip("\x00")`: drop trailing NUL characters. -/
def rstripNul (cs : List Char) : List Char :=
  (cs.reverse.dropWhile (fun c => c = Char.ofNat 0)).reverse

/-- Python `str.lower()` as the analyzer uses it on partition names,
character by character (`Char.toLower` covers the ASCII range the names
drawn from GPT labels and literals use). -/
def strLower (s : String) : String :=
  String.mk (s.data.map Char.toLower)

/-- `NVIDIAAnalyzer._detect_tegra_image_type`: case-insensitive substring
classification of a GPT partition name (the GUID argument is unused). -/
def detectTegraImageType (name : String) (_guid : List Nat) : ImageType :=
  let name_lower := strLower name
  if strContains name_lower "bct" then .unknown
  else if strContains name_lower "mb1" ∨ strContains name_lower "bootloader" then .sbl
  else if strContains name_lower "mb2" ∨ strContains name_lower "tegraboot" then .appsbl
  else if strContains name_lower "cboot" then .appsbl
  else if strContains name_lower "bpmp" then .rpm
  else if strContains name_lower "tos" ∨ strContains name_lower "trustzone" then .tz
  else if strContains name_lower "kernel" ∨ strContains name_lower "boot" then .boot
  else if strContains name_lower "rootfs" ∨ strContains name_lower "system" ∨
      strContains name_lower "app" then .unknown
  else if strContains name_lower "recovery" then .boot
  else .unknown

/-- `NVIDIAAnalyzer._parse_gpt_entry`: skip all-zero type GUIDs, decode the
LBA range and the UTF-16LE name (decode fault means `none`), and classify. -/
def parseGptEntry (entry : List Nat) (index : Nat) : Option PartitionInfo :=
  if entry.length < 128 then none
  else if entry.take 16 = List.replicate 16 0 then none
  else
    let partition_type_guid := entry.take 16
    let first_lba := leU64 entry 32
    let last_lba := leU64 entry 40
    match utf16leDecode ((entry.drop 56).take 72) with
    | none => none
    | some chars =>
      let stripped := rstripNul chars
      let name := if stripped.isEmpty then "partition_" ++ toString index
        else String.mk stripped
      let partition_size : Int := ((last_lba : Int) - (first_lba : Int) + 1) * 512
      some { name := name
             offset := first_lba * 512
             size := partition_size
             image_type := detectTegraImageType name partition_type_guid }

/-- The entry loop of `_parse_gpt_partitions`: the i-th sequential
`f.read(partition_entry_size)` starts at `entryStart + i * entrySize`; stop
at the first read shorter than 128 bytes; large partitions get the
filesystem probe. -/
def gptEntriesAux (s : ByteSource) (skipFs : Bool) (entryStart entrySize : Nat) :
    Nat → Nat → List PartitionInfo
  | 0, _ => []
  | remaining + 1, i =>
    let entry := readAt s (entryStart + i * entrySize) entrySize
    if entry.length < 128 then []
    else
      match parseGptEntry entry i with
      | some p =>
        let p := if !skipFs && 1048576 < p.size then
          { p with filesystem := Fs.fsAnalyze s p.offset p.size } else p
        p :: gptEntriesAux s skipFs entryStart entrySize remaining (i + 1)
      | none => gptEntriesAux s skipFs entryStart entrySize remaining (i + 1)

/-- `NVIDIAAnalyzer._parse_gpt_partitions`: require "EFI PART" in a full
92-byte header at offset 512, then walk `num_entries` entries of
`entry_size` bytes from LBA `partition_entry_lba`. -/
def parseGptPartitions (s : ByteSource) (skipFs : Bool) : List PartitionInfo :=
  let gpt_header := readAt s 512 92
  if gpt_header.length < 92 ∨ gpt_header.take 8 ≠ gptSignature then []
  else
    let partition_entry_lba := leU64 gpt_header 72
    let num_partition_entries := leU32 gpt_header 80
    let partition_entry_size := leU32 gpt_header 84
    gptEntriesAux s skipFs (partition_entry_lba * 512) partition_entry_size
      num_partition_entries 0

/-- The inner magic loop of `_scan_nvidia_partitions`: the first magic (in
list order) occurring in the chunk, with `chunk.find(magic)`. -/
def firstMagicHit (chunk : List Nat) : Option Nat :=
  nvidiaMagics.findSome? (fun magic => findSub chunk magic)

/-- `NVIDIAAnalyzer._estimate_partition_size`: scan forward in 4096-byte
steps (starting 512 past the hit) up to 64 MiB for the next signature,
else `min 16 MiB (remaining file)`. -/
def estimatePartitionSize (s : ByteSource) (offset : Nat) : Nat :=
  let max_scan := min 67108864 (s.size - offset)
  let candidates := (List.range ((max_scan - 512 + 4095) / 4096)).map
    (fun j => 512 + 4096 * j)
  (candidates.find? (fun scan_offset =>
    let chunk := readAt s (offset + scan_offset) 512
    (nvidiaMagics ++ [gptSignature]).any (fun magic => containsSub chunk magic))).getD
    (min 16777216 (s.size - offset))

/-- `NVIDIAAnalyzer._scan_nvidia_partitions`, with explicit fuel: read a
512-byte chunk, emit a partition at the first signature hit and resume past
its estimated extent, else step 4096; stop when fewer than 512 bytes
remain. `none` means the fuel ran out. -/
def scanNVAux (s : ByteSource) : Nat → Nat → Nat → Option (List PartitionInfo)
  | 0, _, _ => none
  | fuel + 1, offset, count =>
    if offset < s.size - 512 then
      let chunk := readAt s offset 512
      if chunk.length < 512 then some []
      else
        match firstMagicHit chunk with
        | some magic_offset =>
          let actual_offset := offset + magic_offset
          let size := estimatePartitionSize s actual_offset
          let p : PartitionInfo :=
            { name := "nvidia_partition_" ++ toString count, offset := actual_offset,
              size := (size : Int), image_type := .unknown }
          (scanNVAux s fuel (actual_offset + size) (count + 1)).map (p :: ·)
        | none => scanNVAux s fuel (offset + 4096) count
    else some []

/-- The NVIDIA signature scan from the start of the file, with fuel that
theorem `scanNVAux_isSome` below shows is always enough. -/
def scanNV (s : ByteSource) : List PartitionInfo :=
  (scanNVAux s (s.size + 1) 0 0).getD []

/-- The discovery step of `NVIDIAAnalyzer.analyze`: BCT detection first,
then GPT, falling back (with a warning) to the signature scan when GPT
yields nothing. -/
def nDiscover (s : ByteSource) (skipFs : Bool) : List PartitionInfo × List String :=
  let bct_partitions := match detectBct s with
    | some bct_info => [bct_info]
    | none => []
  let gpt_partitions := parseGptPartitions s skipFs
  if gpt_partitions.isEmpty then
    (bct_partitions ++ scanNV s, ["GPT not found, scanning for partition signatures"])
  else (bct_partitions ++ gpt_partitions, [])

/-- The `AnalysisResult` record `NVIDIAAnalyzer.analyze` assembles (NVIDIA
size sanity bounds 512 B .. 1 GiB). -/
def nResult (s : ByteSource) (filename : String) (partitions : List PartitionInfo)
    (warnings : List String) : AnalysisResult :=
  { filename := filename
    file_size := s.size
    partitions := partitions
    total_partition_size := totalSize partitions
    total_filesystem_used := totalFsUsed partitions
    validation_errors := Qualcomm.validatePartitions partitions s.size 1073741824 512
    warnings := warnings }

/-- `NVIDIAAnalyzer.analyze`: like the Qualcomm analyzer, the
`UnsupportedFormatError` raised inside the `try` is re-wrapped as
`AnalysisError`. -/
def analyzeN (s : ByteSource) (skipFs : Bool) (filename : String) :
    Except AnalyzeError AnalysisResult :=
  if canHandle s then
    .ok (nResult s filename (nDiscover s skipFs).1 (nDiscover s skipFs).2)
  else
    .error (.analysisError
      "Error analyzing NVIDIA Tegra flash image: Not a recognized NVIDIA Tegra flash image format")

/-- `GangImageAnalyzer.extract_partition` run under the NVIDIA analyzer. -/
def extractN (s : ByteSource) (skipFs : Bool) (filename : String)
    (partition_name : String) : Except AnalyzeError (List Nat) :=
  match analyzeN s skipFs filename with
  | .error e => .error e
  | .ok result =>
    match result.partitions.find? (fun p => p.name == partition_name) with
    | none => .error (.analysisError ("Partition '" ++ partition_name ++
        "' not found. Available: " ++ Qualcomm.availableNames result.partitions))
    | some p => .ok (readPy s p.offset p.size)

end NVIDIA

/-! Concrete byte sources used to instantiate the claims. -/

/-- An 8192-byte Qualcomm image whose 40-byte MBN header at offset 0 has
`header_vsn_num = 3`, `image_dest_ptr = 0x40000000`, `image_size = 4136`;
all other bytes zero (so the four leading zero bytes are an accepted
Qualcomm magic). -/
def srcMbn : ByteSource :=
  ⟨8192, fun i =>
    if i = 4 then 3
    else if i = 15 then 0x40
    else if i = 16 then 0x28
    else if i = 17 then 0x10
    else 0⟩

/-- Like `srcMbn` but with `image_size = 64`: a small accepted MBN image,
cheap to extract in full. -/
def srcMbnSmall : ByteSource :=
  ⟨8192, fun i =>
    if i = 4 then 3
    else if i = 15 then 0x40
    else if i = 16 then 64
    else 0⟩

/-- A 128-byte ELF image with one loadable program header whose
`p_filesz = 100000` runs far past the end of the file. -/
def srcElf : ByteSource :=
  ⟨128, fun i =>
    if i = 0 then 0x7f else if i = 1 then 0x45 else if i = 2 then 0x4c
    else if i = 3 then 0x46
    else if i = 28 then 52      -- e_phoff
    else if i = 42 then 32      -- e_phentsize
    else if i = 44 then 1       -- e_phnum
    else if i = 52 then 1       -- p_type = PT_LOAD
    else if i = 68 then 0xA0 else if i = 69 then 0x86 else if i = 70 then 0x01
    else 0⟩

/-- An 8192-byte ELF image with no program headers at all (`e_phnum = 0`),
but holding a valid MBN header at offset 4096 (`image_size = 1000`,
`image_dest_ptr = 0x40000000`, `header_vsn_num = 3`) that the heuristic
MBN scan would find. -/
def srcElfEmpty : ByteSource :=
  ⟨8192, fun i =>
    if i = 0 then 0x7f else if i = 1 then 0x45 else if i = 2 then 0x4c
    else if i = 3 then 0x46
    else if i = 4100 then 3
    else if i = 4111 then 0x40
    else if i = 4112 then 0xE8 else if i = 4113 then 0x03
    else 0⟩

/-- A 4096-byte image starting "GANG" with nothing else in it. -/
def srcGang : ByteSource :=
  ⟨4096, fun i =>
    if i = 0 then 0x47 else if i = 1 then 0x41 else if i = 2 then 0x4e
    else if i = 3 then 0x47
    else 0⟩

/-- A 100-byte file of capital letters: no Qualcomm magic, no NVIDIA or GPT
signature anywhere. -/
def srcPlain : ByteSource :=
  ⟨100, fun _ => 65⟩

/-- The byte content of the spec's SquashFS probe: "hsqs", `block_size =
131072` at byte 12, `bytes_used = 1024` at byte 40, zero elsewhere. -/
def srcSqBytes : Nat → Nat := fun i =>
  if i = 0 then 0x68 else if i = 1 then 0x73 else if i = 2 then 0x71
  else if i = 3 then 0x73
  else if i = 14 then 2
  else if i = 41 then 4
  else 0

/-- The SquashFS probe region, exactly 96 bytes long as the spec states it. -/
def srcSq96 : ByteSource := ⟨96, srcSqBytes⟩

/-- The same SquashFS superblock with a full KiB of data behind it. -/
def srcSq1k : ByteSource := ⟨1024, srcSqBytes⟩

/-- Whether an analysis outcome is an error of the `PartitionNotFoundError`
class (the class src/flash_img/core/exceptions.py declares for an absent
extraction target). -/
def isPartitionNotFound {α : Type} : Except AnalyzeError α → Bool
  | .error (.partitionNotFoundError _) => true
  | _ => false

/-- The partition the MBN scan finds in `srcMbnSmall`. -/
def pSmall : PartitionInfo :=
  ⟨"sbl_0", 0, 64, .sbl, 0x40000000, 0x40000000, 0, none⟩

/-- The analysis result of `srcMbnSmall` (its 64-byte partition is flagged
as unusually small by the validator). -/
def resSmall : AnalysisResult :=
  ⟨"img", 8192, [pSmall], 64, 0, ["sbl_0: unusually small (64 bytes)"], []⟩

/-- The analysis result of `srcMbn`. -/
def resMbn : AnalysisResult :=
  ⟨"img", 8192, [⟨"sbl_0", 0, 4136, .sbl, 0x40000000, 0x40000000, 0, none⟩],
    4136, 0, [], []⟩

/-- A 2048-byte image holding a GPT header at offset 512
(`partition_entry_lba = 2`, `num_entries = 1`, `entry_size = 128`) and one
non-empty entry at offset 1024 with `first_lba = 2048`, `last_lba = 4095`
and UTF-16LE name "data". -/
def srcGpt : ByteSource :=
  ⟨2048, fun i =>
    if i = 512 then 0x45 else if i = 513 then 0x46 else if i = 514 then 0x49
    else if i = 515 then 0x20 else if i = 516 then 0x50 else if i = 517 then 0x41
    else if i = 518 then 0x52 else if i = 519 then 0x54
    else if i = 584 then 2      -- partition_entry_lba
    else if i = 592 then 1      -- num_partition_entries
    else if i = 596 then 128    -- partition_entry_size
    else if i = 1024 then 1     -- non-zero type GUID
    else if i = 1057 then 8     -- first_lba = 2048
    else if i = 1064 then 0xFF else if i = 1065 then 0x0F  -- last_lba = 4095
    else if i = 1080 then 0x64 else if i = 1082 then 0x61
    else if i = 1084 then 0x74 else if i = 1086 then 0x61  -- "data"
    else 0⟩

/-! Helper lemmas about reads, alignment and the scan loops. -/

theorem readAt_length (s : ByteSource) (off len : Nat) :
    (readAt s off len).length = min len (s.size - off) := by
  simp [readAt]

theorem readAt_eq_sourceSlice (s : ByteSource) (off len : Nat)
    (h : off + len ≤ s.size) : readAt s off len = sourceSlice s off len := by
  unfold readAt sourceSlice
  rw [Nat.min_eq_left (by omega)]

theorem readAt_take (s : ByteSource) (off a b : Nat) :
    (readAt s off a).take b = readAt s off (min b a) := by
  unfold readAt
  rw [← List.map_take, List.take_range]
  congr 2
  omega

theorem validateMBN_image_size_pos {fileSize : Nat} {h : Qualcomm.MBNHeader}
    {offset : Nat} (hv : Qualcomm.validateMBNHeader fileSize h offset = true) :
    1 ≤ h.image_size := by
  unfold Qualcomm.validateMBNHeader at hv
  simp only [Bool.and_eq_true, Bool.not_eq_true', decide_eq_false_iff_not,
    not_or] at hv
  omega

theorem alignUp4096_ge (n : Nat) : n ≤ Qualcomm.alignUp4096 n := by
  unfold Qualcomm.alignUp4096
  omega

theorem alignUp4096_mod (n : Nat) : Qualcomm.alignUp4096 n % 4096 = 0 := by
  unfold Qualcomm.alignUp4096
  omega

theorem alignUp4096_lower {offset m : Nat} (hal : offset % 4096 = 0)
    (hm : 1 ≤ m) : offset + 4096 ≤ Qualcomm.alignUp4096 (offset + m) := by
  unfold Qualcomm.alignUp4096
  omega

theorem scanMBNAux_isSome_of_aligned (s : ByteSource) (skipFs : Bool) :
    ∀ fuel offset count : Nat, offset % 4096 = 0 → s.size - offset ≤ 4096 * fuel →
      (Qualcomm.scanMBNAux s skipFs (fuel + 1) offset count).isSome = true := by
  intro fuel
  induction fuel with
  | zero =>
    intro offset count hal hle
    have hno : ¬ offset < s.size - 40 := by omega
    simp [Qualcomm.scanMBNAux, hno]
  | succ n ih =>
    intro offset count hal hle
    by_cases hlt : offset < s.size - 40
    · simp only [Qualcomm.scanMBNAux, hlt, if_true]
      by_cases hlen : (readAt s offset 40).length < 40
      · simp [hlen]
      · simp only [hlen, if_false]
        cases hp : Qualcomm.parseMBNHeader (readAt s offset 40) with
        | none => exact ih (offset + 4096) count (by omega) (by omega)
        | some mh =>
          by_cases hv : Qualcomm.validateMBNHeader s.size mh offset = true
          · simp only [hv, if_true]
            have h1 := validateMBN_image_size_pos hv
            have h2 := alignUp4096_lower hal h1
            have h3 := alignUp4096_mod (offset + mh.image_size)
            rw [Option.isSome_map']
            exact ih _ (count + 1) h3 (by omega)
          · simp only [hv, if_false]
            exact ih (offset + 4096) count (by omega) (by omega)
    · simp [Qualcomm.scanMBNAux, hlt]

theorem findSub_bound {α : Type} [DecidableEq α] {hay pat : List α} {i : Nat}
    (h : findSub hay pat = some i) : i + pat.length ≤ hay.length := by
  unfold findSub at h
  have hmem := List.mem_of_find?_eq_some h
  have hpred := List.find?_some h
  have hpre : pat <+: hay.drop i := by
    rw [← List.isPrefixOf_iff_prefix]
    exact hpred
  have hlen := hpre.length_le
  simp only [List.length_drop] at hlen
  have hi : i < hay.length + 1 := List.mem_range.mp hmem
  omega

theorem firstMagicHit_bound {chunk : List Nat} {i : Nat}
    (h : NVIDIA.firstMagicHit chunk = some i) : i + 4 ≤ chunk.length := by
  unfold NVIDIA.firstMagicHit at h
  obtain ⟨m, hm, hf⟩ := List.exists_of_findSome?_eq_some h
  have hb := findSub_bound hf
  have hlen : m.length = 4 := by
    simp only [NVIDIA.nvidiaMagics, List.mem_cons, List.mem_singleton] at hm
    rcases hm with rfl | rfl | rfl | rfl | h0 <;> first | rfl | cases h0
  omega

theorem estimatePartitionSize_pos (s : ByteSource) (offset : Nat)
    (hoff : offset + 1 ≤ s.size) : 1 ≤ NVIDIA.estimatePartitionSize s offset := by
  unfold NVIDIA.estimatePartitionSize
  cases hfind : (((List.range ((min 67108864 (s.size - offset) - 512 + 4095) / 4096)).map
      (fun j => 512 + 4096 * j)).find? (fun scan_offset =>
        (NVIDIA.nvidiaMagics ++ [NVIDIA.gptSignature]).any
          (fun magic => containsSub (readAt s (offset + scan_offset) 512) magic))) with
  | none => simp only [hfind, Option.getD_none]; omega
  | some c =>
    have hmem := List.mem_of_find?_eq_some hfind
    simp only [List.mem_map] at hmem
    obtain ⟨j, _, rfl⟩ := hmem
    simp only [hfind, Option.getD_some]
    omega

theorem scanNVAux_succ (s : ByteSource) (fuel offset count : Nat) :
    NVIDIA.scanNVAux s (fuel + 1) offset count =
      (if offset < s.size - 512 then
        let chunk := readAt s offset 512
        if chunk.length < 512 then some []
        else
          match NVIDIA.firstMagicHit chunk with
          | some magic_offset =>
            let actual_offset := offset + magic_offset
            let size := NVIDIA.estimatePartitionSize s actual_offset
            let p : PartitionInfo :=
              { name := "nvidia_partition_" ++ toString count, offset := actual_offset,
                size := (size : Int), image_type := .unknown }
            (NVIDIA.scanNVAux s fuel (actual_offset + size) (count + 1)).map (p :: ·)
          | none => NVIDIA.scanNVAux s fuel (offset + 4096) count
      else some []) := rfl

theorem scanNVAux_isSome (s : ByteSource) :
    ∀ fuel offset count : Nat, s.size - offset ≤ fuel →
      (NVIDIA.scanNVAux s (fuel + 1) offset count).isSome = true := by
  intro fuel
  induction fuel with
  | zero =>
    intro offset count hle
    have hno : ¬ offset < s.size - 512 := by omega
    simp [scanNVAux_succ, hno]
  | succ n ih =>
    intro offset count hle
    rw [scanNVAux_succ]
    by_cases hlt : offset < s.size - 512
    · simp only [hlt, if_true]
      by_cases hlen : (readAt s offset 512).length < 512
      · simp [hlen]
      · simp only [hlen, if_false]
        cases hm : NVIDIA.firstMagicHit (readAt s offset 512) with
        | none =>
          simp only [hm]
          exact ih (offset + 4096) count (by omega)
        | some mo =>
          simp only [hm]
          have hb := firstMagicHit_bound hm
          have hcl := readAt_length s offset 512
          have hsz : 1 ≤ NVIDIA.estimatePartitionSize s (offset + mo) := by
            apply estimatePartitionSize_pos
            omega
          rw [Option.isSome_map']
          apply ih _ (count + 1)
          omega
    · simp [hlt]

theorem tryParseElf_eq_none_of_not_elf {s : ByteSource} (skipFs : Bool)
    (h : readAt s 0 4 ≠ [0x7f, 0x45, 0x4c, 0x46]) :
    Qualcomm.tryParseElf s skipFs = none := by
  unfold Qualcomm.tryParseElf
  have ht : (readAt s 0 52).take 4 = readAt s 0 4 := by
    rw [readAt_take]
    norm_num
  rw [if_pos]
  right
  rw [ht]
  exact h

theorem qDiscover_snd_indep (st st' : Qualcomm.QState) (s : ByteSource)
    (skipFs : Bool) :
    (Qualcomm.qDiscover st s skipFs).2 = (Qualcomm.qDiscover st' s skipFs).2 := by
  unfold Qualcomm.qDiscover
  by_cases hd : Qualcomm.detectGangFormat s = true
  · cases he : Qualcomm.tryParseElf s skipFs <;> simp [hd, he]
  · simp [hd]

theorem analyzeQ_snd_indep (st st' : Qualcomm.QState) (s : ByteSource)
    (skipFs : Bool) (fn : String) :
    (Qualcomm.analyzeQ st s skipFs fn).2 = (Qualcomm.analyzeQ st' s skipFs fn).2 := by
  unfold Qualcomm.analyzeQ
  by_cases hc : Qualcomm.canHandle s = true
  · simp only [hc, if_true]
    rw [qDiscover_snd_indep st st' s skipFs]
  · simp [hc]

theorem analyzeQ_ok_shape {st : Qualcomm.QState} {s : ByteSource} {skipFs : Bool}
    {fn : String} {r : AnalysisResult}
    (h : (Qualcomm.analyzeQ st s skipFs fn).2 = .ok r) :
    r = Qualcomm.qResult s fn (Qualcomm.qDiscover st s skipFs).2.1
      (Qualcomm.qDiscover st s skipFs).2.2 := by
  unfold Qualcomm.analyzeQ at h
  by_cases hc : Qualcomm.canHandle s = true
  · simp only [hc, if_true] at h
    exact (Except.ok.inj h).symm
  · simp [hc] at h

theorem analyzeN_ok_shape {s : ByteSource} {skipFs : Bool} {fn : String}
    {r : AnalysisResult} (h : NVIDIA.analyzeN s skipFs fn = .ok r) :
    r = NVIDIA.nResult s fn (NVIDIA.nDiscover s skipFs).1 (NVIDIA.nDiscover s skipFs).2 := by
  unfold NVIDIA.analyzeN at h
  by_cases hc : NVIDIA.canHandle s = true
  · simp only [hc, if_true] at h
    exact (Except.ok.inj h).symm
  · simp [hc] at h

theorem readPy_in_range (s : ByteSource) (off : Nat) (size : Int)
    (h0 : 0 ≤ size) (hin : (off : Int) + size ≤ (s.size : Int)) :
    readPy s off size = sourceSlice s off size.toNat ∧
    (readPy s off size).length = size.toNat := by
  unfold readPy
  rw [if_neg (by omega)]
  refine ⟨readAt_eq_sourceSlice s off size.toNat (by omega), ?_⟩
  rw [readAt_length]
  omega

/-! The claims. -/

/-- C1 (counterexample): on a source `can_handle` rejects, the Qualcomm
analyzer does not fail with `UnsupportedFormatError`: the error it raises is
`AnalysisError` (the blanket `except Exception` re-wraps the inner
`UnsupportedFormatError`), exactly as the repository's own test
`test_unsupported_format_error` expects. -/
theorem unsupported_format_wrapped_cex :
    Qualcomm.canHandle srcPlain = false ∧
    isUnsupportedFormat (Qualcomm.analyzeQ {} srcPlain false "img").2 = false ∧
    (Qualcomm.analyzeQ {} srcPlain false "img").2 = .error (.analysisError
      "Error analyzing Qualcomm gang image: Not a recognized Qualcomm gang image format") := by
  decide

/-- C1 (amended): for every source on which `can_handle` would return
false, `analyze` fails with `AnalysisError` wrapping the UnsupportedFormat
message — not with `UnsupportedFormatError` itself — on both the Qualcomm
and the NVIDIA analyzer. -/
theorem analyze_wraps_unsupported_format (st : Qualcomm.QState) (s : ByteSource)
    (skipFs : Bool) (fn : String) :
    (Qualcomm.canHandle s = false →
      (Qualcomm.analyzeQ st s skipFs fn).2 = .error (.analysisError
        "Error analyzing Qualcomm gang image: Not a recognized Qualcomm gang image format")) ∧
    (NVIDIA.canHandle s = false →
      NVIDIA.analyzeN s skipFs fn = .error (.analysisError
        "Error analyzing NVIDIA Tegra flash image: Not a recognized NVIDIA Tegra flash image format")) := by
  constructor
  · intro h
    simp [Qualcomm.analyzeQ, h]
  · intro h
    simp [NVIDIA.analyzeN, h]

/-- C1 (witness): the amended theorem applied to the concrete 100-byte
source no analyzer accepts. -/
theorem analyze_wraps_unsupported_format_witness :
    (Qualcomm.analyzeQ {} srcPlain false "img").2 = .error (.analysisError
      "Error analyzing Qualcomm gang image: Not a recognized Qualcomm gang image format") ∧
    NVIDIA.analyzeN srcPlain false "img" = .error (.analysisError
      "Error analyzing NVIDIA Tegra flash image: Not a recognized NVIDIA Tegra flash image format") :=
  ⟨(analyze_wraps_unsupported_format {} srcPlain false "img").1 (by decide),
   (analyze_wraps_unsupported_format {} srcPlain false "img").2 (by decide)⟩

/-- C2 (counterexample): on `srcElf`, analyze discovers `segment_0` of size
100000 whose byte range leaves the 128-byte source; extracting it does not
fail with `AnalysisError` — it silently returns the 128 available bytes. -/
theorem extract_out_of_range_truncates_cex :
    (Qualcomm.analyzeQ {} srcElf true "img").2.toOption.map (·.partitions) =
      some [⟨"segment_0", 0, 100000, .unknown, 0, 0, 0, none⟩] ∧
    Qualcomm.extractQ {} srcElf true "img" "segment_0" =
      .ok (sourceSlice srcElf 0 128) ∧
    (sourceSlice srcElf 0 128).length = 128 := by
  decide

/-- C2 (amended): extraction returns whatever `read(size)` yields at
`offset` for the first discovered partition carrying the requested name:
exactly `size` bytes equal to source[offset, offset+size) whenever the range
lies within the source, and the silently truncated in-range prefix (still a
success, never an `AnalysisError`) when it does not. -/
theorem extract_roundtrip_first_match :
    (∀ (st : Qualcomm.QState) (s : ByteSource) (skipFs : Bool)
      (fn name : String) (r : AnalysisResult) (p : PartitionInfo),
      (Qualcomm.analyzeQ st s skipFs fn).2 = .ok r →
      r.partitions.find? (fun q => q.name == name) = some p →
      Qualcomm.extractQ st s skipFs fn name = .ok (readPy s p.offset p.size) ∧
      (0 ≤ p.size → (p.offset : Int) + p.size ≤ (s.size : Int) →
        readPy s p.offset p.size = sourceSlice s p.offset p.size.toNat ∧
        (readPy s p.offset p.size).length = p.size.toNat)) ∧
    (∀ (s : ByteSource) (skipFs : Bool) (fn name : String)
      (r : AnalysisResult) (p : PartitionInfo),
      NVIDIA.analyzeN s skipFs fn = .ok r →
      r.partitions.find? (fun q => q.name == name) = some p →
      NVIDIA.extractN s skipFs fn name = .ok (readPy s p.offset p.size) ∧
      (0 ≤ p.size → (p.offset : Int) + p.size ≤ (s.size : Int) →
        readPy s p.offset p.size = sourceSlice s p.offset p.size.toNat ∧
        (readPy s p.offset p.size).length = p.size.toNat)) := by
  constructor
  · intro st s skipFs fn name r p hok hfind
    refine ⟨?_, fun h0 hin => readPy_in_range s p.offset p.size h0 hin⟩
    have hstep : Qualcomm.extractQ st s skipFs fn name =
        (match r.partitions.find? (fun q => q.name == name) with
         | none => Except.error (.analysisError ("Partition '" ++ name ++
             "' not found. Available: " ++ Qualcomm.availableNames r.partitions))
         | some q => Except.ok (readPy s q.offset q.size)) := by
      unfold Qualcomm.extractQ
      rw [hok]
    rw [hstep, hfind]
  · intro s skipFs fn name r p hok hfind
    refine ⟨?_, fun h0 hin => readPy_in_range s p.offset p.size h0 hin⟩
    have hstep : NVIDIA.extractN s skipFs fn name =
        (match r.partitions.find? (fun q => q.name == name) with
         | none => Except.error (.analysisError ("Partition '" ++ name ++
             "' not found. Available: " ++ Qualcomm.availableNames r.partitions))
         | some q => Except.ok (readPy s q.offset q.size)) := by
      unfold NVIDIA.extractN
      rw [hok]
    rw [hstep, hfind]

/-- C2 (witness): the amended theorem applied to the in-range 64-byte MBN
partition of `srcMbnSmall`. -/
theorem extract_roundtrip_first_match_witness :
    Qualcomm.extractQ {} srcMbnSmall false "img" "sbl_0" =
      .ok (sourceSlice srcMbnSmall 0 (Int.toNat 64)) := by
  have h := (extract_roundtrip_first_match.1 {} srcMbnSmall false "img" "sbl_0"
    resSmall pSmall (by decide) (by decide))
  rw [h.1, (h.2 (by decide) (by decide)).1]
  rfl

/-- C3 (counterexample): on the accepted non-ELF magic "GANG" the analyzer
falls back to the MBN scan but records no warning; and on an ELF image with
zero loadable segments no MBN fallback happens at all — the result has no
partitions even though the MBN scan would find one at offset 4096. -/
theorem fallback_warning_missing_cex :
    (Qualcomm.analyzeQ {} srcGang false "img").2.toOption.map (·.warnings) = some [] ∧
    (Qualcomm.analyzeQ {} srcElfEmpty false "img").2.toOption.map (·.partitions) = some [] ∧
    Qualcomm.scanMBN srcElfEmpty false =
      [⟨"sbl_0", 4096, 1000, .sbl, 0x40000000, 0x40000000, 0, none⟩] := by
  decide

/-- C3 (amended): for an accepted Qualcomm source whose magic is not ELF,
analyze does fall back to the heuristic MBN scan, but no warning is
recorded; and when the ELF parse yields zero loadable segments the result
has zero partitions with no MBN fallback and no warning. -/
theorem fallback_behaviour_amended :
    (∀ (st : Qualcomm.QState) (s : ByteSource) (skipFs : Bool) (fn : String),
      Qualcomm.canHandle s = true →
      readAt s 0 4 ≠ [0x7f, 0x45, 0x4c, 0x46] →
      (Qualcomm.analyzeQ st s skipFs fn).2.toOption.map (·.partitions) =
        some (Qualcomm.scanMBN s skipFs) ∧
      (Qualcomm.analyzeQ st s skipFs fn).2.toOption.map (·.warnings) = some []) ∧
    (∀ (st : Qualcomm.QState) (s : ByteSource) (skipFs : Bool) (fn : String),
      Qualcomm.canHandle s = true →
      Qualcomm.tryParseElf s skipFs = some [] →
      (Qualcomm.analyzeQ st s skipFs fn).2.toOption.map (·.partitions) = some [] ∧
      (Qualcomm.analyzeQ st s skipFs fn).2.toOption.map (·.warnings) = some []) := by
  constructor
  · intro st s skipFs fn hc helf
    have hd : Qualcomm.detectGangFormat s = true := hc
    have hnone := tryParseElf_eq_none_of_not_elf skipFs helf
    have hshape : (Qualcomm.analyzeQ st s skipFs fn).2 =
        .ok (Qualcomm.qResult s fn (Qualcomm.scanMBN s skipFs) []) := by
      unfold Qualcomm.analyzeQ Qualcomm.qDiscover
      simp [hc, hd, hnone]
    rw [hshape]
    exact ⟨rfl, rfl⟩
  · intro st s skipFs fn hc helf
    have hd : Qualcomm.detectGangFormat s = true := hc
    have hshape : (Qualcomm.analyzeQ st s skipFs fn).2 =
        .ok (Qualcomm.qResult s fn [] []) := by
      unfold Qualcomm.analyzeQ Qualcomm.qDiscover
      simp [hc, hd, helf]
    rw [hshape]
    exact ⟨rfl, rfl⟩

/-- C3 (witness): the amended theorem applied to the "GANG" source and to
the segmentless ELF source. -/
theorem fallback_behaviour_amended_witness :
    (Qualcomm.analyzeQ {} srcGang false "img").2.toOption.map (·.partitions) =
      some (Qualcomm.scanMBN srcGang false) ∧
    (Qualcomm.analyzeQ {} srcElfEmpty false "img").2.toOption.map (·.partitions) =
      some [] :=
  ⟨((fallback_behaviour_amended.1 {} srcGang false "img" (by decide) (by decide)).1),
   ((fallback_behaviour_amended.2 {} srcElfEmpty false "img" (by decide) (by decide)).1)⟩

/-- C4 (counterexample): `FilesystemAnalyzer.analyze` applied to the spec's
96-byte SquashFS region returns nothing at all: fewer than 1 KiB of data is
available, so the probe gives up before looking at the magic. -/
theorem squashfs_96_byte_region_none_cex :
    Fs.fsAnalyze srcSq96 0 96 = none := by
  decide

/-- C4 (amended): the same SquashFS superblock probed over a region of at
least the detector's 1 KiB minimum yields
`FilesystemInfo(squashfs, fs_size = 1024, used_size = 1024, free_size = 0)`
(with `block_size = 131072`); the 96-byte region of the original claim
yields none. -/
theorem squashfs_probe_kib_region :
    Fs.fsAnalyze srcSq1k 0 1024 =
      some ⟨"squashfs", 1024, 1024, 0, 131072, 0, 0⟩ := by
  decide

/-- C5: an 8192-byte image whose 40-byte header at offset 0 decodes with
`image_size = 4136`, `image_dest_ptr = 0x40000000`, `header_vsn_num = 3` is
accepted by the MBN scan at offset 0, and the analysis result holds exactly
that partition, classified SBL, with size 4136 and
`load_addr = entry_point = 0x40000000`. -/
theorem mbn_acceptance_sbl :
    Qualcomm.scanMBN srcMbn false =
      [⟨"sbl_0", 0, 4136, .sbl, 0x40000000, 0x40000000, 0, none⟩] ∧
    (Qualcomm.analyzeQ {} srcMbn false "img").2 = .ok resMbn := by
  decide

/-- C6: a GPT whose 92-byte header at offset 512 carries "EFI PART" with
`partition_entry_lba = 2`, `num_entries = 1`, `entry_size = 128`, and whose
single non-empty entry has `first_lba = 2048`, `last_lba = 4095` and
UTF-16LE name "data", yields exactly one partition named "data" with
offset 1048576 and size 1048576. -/
theorem gpt_probe_data_partition :
    NVIDIA.parseGptPartitions srcGpt false =
      [⟨"data", 1048576, 1048576, .unknown, 0, 0, 0, none⟩] := by
  decide

/-- C7 (counterexample): extracting an absent name fails with
`AnalysisError` (its message does list the available names), not with the
`PartitionNotFoundError` class the spec names. -/
theorem partition_not_found_class_cex :
    Qualcomm.extractQ {} srcMbnSmall false "img" "nope" = .error (.analysisError
      "Partition 'nope' not found. Available: sbl_0") ∧
    isPartitionNotFound (Qualcomm.extractQ {} srcMbnSmall false "img" "nope") = false := by
  decide

/-- C7 (amended): for every analysis result and every name matching no
discovered partition, extraction fails with `AnalysisError` whose message
lists all available partition names, on both analyzers. -/
theorem extract_missing_name_lists_available :
    (∀ (st : Qualcomm.QState) (s : ByteSource) (skipFs : Bool) (fn name : String)
      (r : AnalysisResult),
      (Qualcomm.analyzeQ st s skipFs fn).2 = .ok r →
      (∀ p ∈ r.partitions, p.name ≠ name) →
      Qualcomm.extractQ st s skipFs fn name = .error (.analysisError
        ("Partition '" ++ name ++ "' not found. Available: " ++
          Qualcomm.availableNames r.partitions))) ∧
    (∀ (s : ByteSource) (skipFs : Bool) (fn name : String) (r : AnalysisResult),
      NVIDIA.analyzeN s skipFs fn = .ok r →
      (∀ p ∈ r.partitions, p.name ≠ name) →
      NVIDIA.extractN s skipFs fn name = .error (.analysisError
        ("Partition '" ++ name ++ "' not found. Available: " ++
          Qualcomm.availableNames r.partitions))) := by
  constructor
  · intro st s skipFs fn name r hok habs
    have hf : r.partitions.find? (fun q => q.name == name) = none := by
      rw [List.find?_eq_none]
      intro p hp
      simpa using habs p hp
    have hstep : Qualcomm.extractQ st s skipFs fn name =
        (match r.partitions.find? (fun q => q.name == name) with
         | none => Except.error (.analysisError ("Partition '" ++ name ++
             "' not found. Available: " ++ Qualcomm.availableNames r.partitions))
         | some q => Except.ok (readPy s q.offset q.size)) := by
      unfold Qualcomm.extractQ
      rw [hok]
    rw [hstep, hf]
  · intro s skipFs fn name r hok habs
    have hf : r.partitions.find? (fun q => q.name == name) = none := by
      rw [List.find?_eq_none]
      intro p hp
      simpa using habs p hp
    have hstep : NVIDIA.extractN s skipFs fn name =
        (match r.partitions.find? (fun q => q.name == name) with
         | none => Except.error (.analysisError ("Partition '" ++ name ++
             "' not found. Available: " ++ Qualcomm.availableNames r.partitions))
         | some q => Except.ok (readPy s q.offset q.size)) := by
      unfold NVIDIA.extractN
      rw [hok]
    rw [hstep, hf]

/-- C7 (witness): the amended theorem applied to `srcMbnSmall` and the
absent name "nope". -/
theorem extract_missing_name_lists_available_witness :
    Qualcomm.extractQ {} srcMbnSmall false "img" "nope" = .error (.analysisError
      ("Partition '" ++ "nope" ++ "' not found. Available: " ++
        Qualcomm.availableNames resSmall.partitions)) :=
  extract_missing_name_lists_available.1 {} srcMbnSmall false "img" "nope"
    resSmall (by decide) (by decide)

/-- C8: two successive `analyze()` calls on an unchanged source produce the
same result (in particular, structurally equal partition sequences): the
Qualcomm analyzer's one persisted attribute (`self.partitions`) does not
influence the second call, and the NVIDIA analyzer keeps no state at all. -/
theorem analyze_idempotent (st : Qualcomm.QState) (s : ByteSource)
    (skipFs : Bool) (fn : String) :
    (Qualcomm.analyzeQ ((Qualcomm.analyzeQ st s skipFs fn).1) s skipFs fn).2 =
      (Qualcomm.analyzeQ st s skipFs fn).2 ∧
    NVIDIA.analyzeN s skipFs fn = NVIDIA.analyzeN s skipFs fn :=
  ⟨analyzeQ_snd_indep _ st s skipFs fn, rfl⟩

/-- C9: every scanning loop terminates on every finite input: the Qualcomm
MBN scan finishes within `size / 4096 + 1` iterations (the cursor, always
4096-aligned, advances by at least 4096 per iteration and the loop stops
when fewer than 40 bytes remain), and the NVIDIA signature scan finishes
within `size + 1` iterations (strictly positive progress each step, with
the 64 MiB / 16 MiB-capped extent estimation a bounded search). -/
theorem scan_loops_terminate (s : ByteSource) (skipFs : Bool) :
    (Qualcomm.scanMBNAux s skipFs (s.size / 4096 + 2) 0 0).isSome = true ∧
    (NVIDIA.scanNVAux s (s.size + 1) 0 0).isSome = true := by
  constructor
  · exact scanMBNAux_isSome_of_aligned s skipFs (s.size / 4096 + 1) 0 0
      (by norm_num) (by omega)
  · exact scanNVAux_isSome s s.size 0 0 (by omega)

/-- C10: every successful analysis result satisfies
`total_partition_size = Σ size` over all its partitions and
`total_filesystem_used = Σ used_size` over exactly the partitions with an
attached filesystem, on both analyzers. -/
theorem analysis_totals_are_sums :
    (∀ (st : Qualcomm.QState) (s : ByteSource) (skipFs : Bool) (fn : String)
      (r : AnalysisResult),
      (Qualcomm.analyzeQ st s skipFs fn).2 = .ok r →
      r.total_partition_size = (r.partitions.map (·.size)).sum ∧
      r.total_filesystem_used =
        (r.partitions.filterMap (fun p => p.filesystem.map (·.used_size))).sum) ∧
    (∀ (s : ByteSource) (skipFs : Bool) (fn : String) (r : AnalysisResult),
      NVIDIA.analyzeN s skipFs fn = .ok r →
      r.total_partition_size = (r.partitions.map (·.size)).sum ∧
      r.total_filesystem_used =
        (r.partitions.filterMap (fun p => p.filesystem.map (·.used_size))).sum) := by
  constructor
  · intro st s skipFs fn r h
    rw [analyzeQ_ok_shape h]
    simp only [Qualcomm.qResult]
    exact ⟨rfl, rfl⟩
  · intro s skipFs fn r h
    rw [analyzeN_ok_shape h]
    simp only [NVIDIA.nResult]
    exact ⟨rfl, rfl⟩

/-- C10 (witness): the totals theorem applied to the concrete result of
analyzing `srcMbn`. -/
theorem analysis_totals_are_sums_witness :
    resMbn.total_partition_size = (resMbn.partitions.map (·.size)).sum ∧
    resMbn.total_filesystem_used =
      (resMbn.partitions.filterMap (fun p => p.filesystem.map (·.used_size))).sum :=
  analysis_totals_are_sums.1 {} srcMbn false "img" resMbn (by decide)

end FlashImg
